import Mathlib

/-
  Verification development for the clinical-eligibility-ml repository.

  Shallow embedding of the phenotype derivation, heuristic eligibility and
  ranking-evaluation core:
  * pandas float cells are modelled by `FVal` (finite rational, plus and minus
    infinity, NaN); elementwise comparisons against NaN are false, matching
    numpy comparison semantics;
  * DataFrames are modelled as lists of typed rows, with column presence
    modelled at table level where the code branches on it;
  * vectorized mask assignments (df.loc[mask, col] = v) are modelled by their
    elementwise row semantics;
  * fallible code returns Except.
-/

namespace ClinEl

/-- A pandas float cell: finite value, positive or negative infinity, or NaN. -/
inductive FVal where
  | fin (q : ℚ)
  | pinf
  | ninf
  | nan
deriving DecidableEq

namespace FVal

/-- Elementwise `x >= c` for a constant c, as numpy evaluates it: NaN compares false. -/
def geQ (x : FVal) (c : ℚ) : Bool :=
  match x with
  | .fin q => decide (c ≤ q)
  | .pinf => true
  | .ninf => false
  | .nan => false

/-- Elementwise `x <= c` for a constant c, as numpy evaluates it: NaN compares false. -/
def leQ (x : FVal) (c : ℚ) : Bool :=
  match x with
  | .fin q => decide (q ≤ c)
  | .pinf => false
  | .ninf => true
  | .nan => false

/-- Elementwise `x > c` for a constant c, as numpy evaluates it: NaN compares false. -/
def gtQ (x : FVal) (c : ℚ) : Bool :=
  match x with
  | .fin q => decide (c < q)
  | .pinf => true
  | .ninf => false
  | .nan => false

/-- pandas isnull on a float column: true exactly on NaN. -/
def isNull (x : FVal) : Bool :=
  match x with
  | .nan => true
  | _ => false

/-- numpy isfinite: false on NaN and on both infinities. -/
def isFin (x : FVal) : Bool :=
  match x with
  | .fin _ => true
  | _ => false

end FVal

/-- Character-list version of Python str.startswith. -/
def pfxMatch : List Char → List Char → Bool
  | [], _ => true
  | _ :: _, [] => false
  | a :: p, b :: s => a == b && pfxMatch p s

/-- Character-list version of Python substring containment (str.contains). -/
def hasSub (needle : List Char) : List Char → Bool
  | [] => needle.isEmpty
  | b :: s => pfxMatch needle (b :: s) || hasSub needle s

/-- Python `hay.__contains__(needle)` on strings. -/
def strContains (hay needle : String) : Bool :=
  hasSub needle.toList hay.toList

/-- Python str.startswith on strings. -/
def strStarts (s p : String) : Bool :=
  pfxMatch p.toList s.toList

/-
  ## Eligibility label engine
  Embeds app/engine/heuristics/eligibility_label.py, function _apply_heuristics.
  Thresholds MIN_ELIGIBLE_AGE, MAX_ELIGIBLE_AGE, MAX_EXCLUSION_AGE and the
  INCLUDE_ELECTIVE_ADMISSIONS setting are module constants in the source; the
  embedding takes them as parameters so the theorems quantify over them.
-/

/-- The constants read by _apply_heuristics (config/thresholds.py, config/settings.py). -/
structure HeurConfig where
  minAge : ℚ
  maxAge : ℚ
  hardAge : ℚ
  includeElective : Bool
deriving DecidableEq

/-- One row of the joined admissions table fed to _apply_heuristics. -/
structure AdmRow where
  subject_id : Int
  hadm_id : Int
  admission_type : String
  has_any_stroke_signal : Bool
  stroke_code_count : Int
  age_at_admission : FVal
deriving DecidableEq

/-- The flags _apply_heuristics adds to each row. -/
structure EligRow where
  age_in_range : Bool
  age_excluded : Bool
  stroke_signal_ok : Bool
  is_emergency : Bool
  admission_ok : Bool
  excluded : Bool
  eligibility_heuristic_label : Bool
deriving DecidableEq

/-- Elementwise semantics of _apply_heuristics for one row. `hasAgeCol` is the
table-level branch `if "age_at_admission" in df.columns`. -/
def applyHeuristicsRow (cfg : HeurConfig) (hasAgeCol : Bool) (r : AdmRow) : EligRow :=
  let age_in_range :=
    if hasAgeCol then r.age_at_admission.geQ cfg.minAge && r.age_at_admission.leQ cfg.maxAge
    else true
  let age_excluded :=
    if hasAgeCol then r.age_at_admission.gtQ cfg.hardAge
    else false
  let stroke_signal_ok := r.has_any_stroke_signal
  let is_emergency := strContains r.admission_type.toUpper "EMERGENCY"
  let admission_ok := if cfg.includeElective then true else is_emergency
  let excluded := age_excluded
  let label := age_in_range && stroke_signal_ok && admission_ok && !excluded
  ⟨age_in_range, age_excluded, stroke_signal_ok, is_emergency, admission_ok, excluded, label⟩

/-- The joined admissions table: the branch on column presence, and its rows. -/
structure AdmTable where
  hasAgeCol : Bool
  rows : List AdmRow

/-- _apply_heuristics over a whole table. -/
def applyHeuristics (cfg : HeurConfig) (t : AdmTable) : List EligRow :=
  t.rows.map (applyHeuristicsRow cfg t.hasAgeCol)

/-
  ## Exclusion rules
  Embeds app/engine/heuristics/exclusion_rules.py, function apply_exclusion_rules.
  The two df.loc mask assignments per sub-rule are modelled by their elementwise
  row semantics, applied in source order.
-/

/-- The resolved exclusion configuration: the two toggles and the hard age
threshold (defaults true, true, MAX_EXCLUSION_AGE = 90 when study_config is
absent or has no "exclusions" group). -/
structure ExclConfig where
  exclude_without_stroke : Bool
  exclude_if_age_above : Bool
  hard_exclude_age : ℚ
deriving DecidableEq

/-- Defaults resolved when study_config is None: both sub-rules enabled,
hard exclusion age MAX_EXCLUSION_AGE = 90. -/
def defaultExclConfig : ExclConfig := ⟨true, true, 90⟩

/-- The columns apply_exclusion_rules reads from each row (presence and dtype
are enforced by require_columns / require_numeric / require_boolean before the
masks run; a typed row models a table that passed those checks). -/
structure ExclRow where
  age_at_admission : FVal
  has_any_stroke_signal : Bool
deriving DecidableEq

/-- The two columns apply_exclusion_rules adds. -/
structure ExclOut where
  excluded : Bool
  exclusion_reason : String
deriving DecidableEq

/-- Elementwise semantics of apply_exclusion_rules for one row: initialise
excluded = False / reason = "", then the age mask pair, then the stroke mask
pair, in source order. -/
def applyExclusionRulesRow (cfg : ExclConfig) (r : ExclRow) : ExclOut :=
  let excl0 := false
  let reason0 := ""
  let ageMask := cfg.exclude_if_age_above && r.age_at_admission.gtQ cfg.hard_exclude_age
  let excl1 := if ageMask then true else excl0
  let reason1 := if ageMask then "age_above_hard_limit" else reason0
  let noStroke := !r.has_any_stroke_signal
  let excl2 := if cfg.exclude_without_stroke && (!excl1 && noStroke) then true else excl1
  let reason2 :=
    if cfg.exclude_without_stroke && (excl2 && (reason1 == "") && noStroke)
    then "no_stroke_signal" else reason1
  ⟨excl2, reason2⟩

/-- apply_exclusion_rules over a whole table. -/
def applyExclusionRules (cfg : ExclConfig) (rows : List ExclRow) : List ExclOut :=
  rows.map (applyExclusionRulesRow cfg)

/-- Elementwise semantics of apply_exclusion_rules from
src/heuristics/exclusion_rules.py (legacy): no configuration parameter, both
sub-rules always active at MAX_EXCLUSION_AGE = 90, and the age branch records
the reason "age_above_max_exclusion" (not "age_above_hard_limit"). -/
def applyExclusionRulesLegacyRow (r : ExclRow) : ExclOut :=
  let ageMask := r.age_at_admission.gtQ 90
  let excl1 := if ageMask then true else false
  let reason1 := if ageMask then "age_above_max_exclusion" else ""
  let noStroke := !r.has_any_stroke_signal
  let excl2 := if !excl1 && noStroke then true else excl1
  let reason2 :=
    if excl2 && (reason1 == "") && noStroke then "no_stroke_signal" else reason1
  ⟨excl2, reason2⟩

/-
  ## Age rules
  Two divergent implementations exist in the repository:
  * app/engine/heuristics/age_rules.py (config-aware): tolerates a fully
    absent age column, substituting age_in_range = True, age_excluded = False;
  * src/heuristics/age_rules.py (legacy): require_columns fails with a
    ValueError when the column is absent.
-/

/-- The resolved age thresholds (study config overrides module defaults
MIN_ELIGIBLE_AGE = 18, MAX_ELIGIBLE_AGE = 85, MAX_EXCLUSION_AGE = 90). -/
structure AgeConfig where
  minAge : ℚ
  maxAge : ℚ
  hardExclude : ℚ
deriving DecidableEq

/-- The Phase A default thresholds from config/thresholds.py. -/
def defaultAgeConfig : AgeConfig := ⟨18, 85, 90⟩

/-- The age column of an admissions table: either entirely absent (the table
has n rows and no age_at_admission column) or present with one cell per row. -/
inductive AgeCol where
  | absent (n : Nat)
  | present (ages : List FVal)

/-- The pair of flags the age rules add per row. -/
structure AgeFlags where
  age_in_range : Bool
  age_excluded : Bool
deriving DecidableEq

/-- apply_age_rules from app/engine/heuristics/age_rules.py: on an absent
column every row gets (True, False); on a present column the elementwise
comparisons against the resolved thresholds. -/
def applyAgeRules (cfg : AgeConfig) : AgeCol → List AgeFlags
  | .absent n => List.replicate n ⟨true, false⟩
  | .present ages =>
      ages.map (fun a => ⟨a.geQ cfg.minAge && a.leQ cfg.maxAge, a.gtQ cfg.hardExclude⟩)

/-- apply_age_rules from src/heuristics/age_rules.py (legacy): require_columns
raises ValueError on an absent age column; otherwise the same comparisons
against the fixed Phase A thresholds. -/
def applyAgeRulesLegacy : AgeCol → Except String (List AgeFlags)
  | .absent _ =>
      .error "Age rules input is missing required columns: [age_at_admission]"
  | .present ages =>
      .ok (ages.map (fun a =>
        ⟨a.geQ defaultAgeConfig.minAge && a.leQ defaultAgeConfig.maxAge,
         a.gtQ defaultAgeConfig.hardExclude⟩))

/-
  ## Ranking evaluator
  Embeds app/engine/evaluation/ranking.py. The ascending argsort inside
  pandas nargsort is modelled with the library stable insertion sort, which is
  exactly what numpy introsort runs on arrays below its 16-element threshold;
  for larger arrays quicksort leaves the order of equal keys unspecified and
  the embedding fixes the insertion-sort order.
-/

/-- One row of the scored admissions table. -/
structure ScoredRow where
  hadm_id : Int
  label : Bool
  score : FVal
deriving DecidableEq

/-- Total Bool comparison on score cells used by the embedded sort:
ninf < finite (by rational value) < pinf < nan. NaN cells never reach the sort
in evaluate_ranking because _validate_inputs rejects null scores first. -/
def scoreLe (a b : ScoredRow) : Bool :=
  match a.score, b.score with
  | .ninf, _ => true
  | .fin _, .ninf => false
  | .fin x, .fin y => decide (x ≤ y)
  | .fin _, _ => true
  | .pinf, .pinf => true
  | .pinf, .nan => true
  | .pinf, _ => false
  | .nan, .nan => true
  | .nan, _ => false

/-- The Prop form of scoreLe, for the library sort. -/
def scoreLeP (a b : ScoredRow) : Prop := scoreLe a b = true

instance : DecidableRel scoreLeP := fun a b => instDecidableEqBool (scoreLe a b) true

/-- df.sort_values(by="eligibility_ml_score", ascending=False): pandas nargsort
computes an ascending argsort of the column and reverses the indexer for a
descending sort. -/
def sortValuesDesc (rows : List ScoredRow) : List ScoredRow :=
  (List.insertionSort scoreLeP rows).reverse

/-- The sort the specification describes for the score-ranked strategy: a
stable DESCENDING sort in which rows with equal scores retain their original
relative order. Spec-side definition, written from the words of the spec for
comparison with sortValuesDesc. -/
def sortByScoreDescStable (rows : List ScoredRow) : List ScoredRow :=
  List.insertionSort (fun a b => scoreLe b a = true) rows

/-- The metric pair returned per method and K. -/
structure MetricPair where
  recall_at_k : ℚ
  precision_at_k : ℚ
deriving DecidableEq

/-- _evaluate_heuristic_screening: filter the heuristic positives in table
order, screen the first K, with the explicit zero guards on both divisions. -/
def evalHeuristicScreening (rows : List ScoredRow) (k : Nat) : MetricPair :=
  let positives := rows.filter (fun r => r.label)
  let screened := positives.take k
  let totalPositives := positives.length
  let recallV : ℚ :=
    if totalPositives > 0 then (screened.length : ℚ) / (totalPositives : ℚ) else 0
  let precisionV : ℚ :=
    if k > 0 then (screened.length : ℚ) / (k : ℚ) else 0
  ⟨recallV, precisionV⟩

/-- _evaluate_ml_ranking: sort descending by score, screen the first K, count
heuristic positives inside and overall, with the explicit zero guards. -/
def evalMlRanking (rows : List ScoredRow) (k : Nat) : MetricPair :=
  let ranked := sortValuesDesc rows
  let screened := ranked.take k
  let totalPositives := (rows.filter (fun r => r.label)).length
  let truePositives := (screened.filter (fun r => r.label)).length
  let recallV : ℚ :=
    if totalPositives > 0 then (truePositives : ℚ) / (totalPositives : ℚ) else 0
  let precisionV : ℚ :=
    if k > 0 then (truePositives : ℚ) / (k : ℚ) else 0
  ⟨recallV, precisionV⟩

/-
  ## Code classifier
  Embeds src/code_mapping/stroke_codelist.py and cardiovascular_codelist.py.
  Arguments are Option String: none models Python None, and Python truthiness
  makes both None and the empty string falsy.
-/

/-- Python truthiness of an optional string: None and "" are falsy. -/
def pyStrFalsy : Option String → Bool
  | none => true
  | some s => s == ""

/-- ICD9_STROKE_PREFIXES (stroke_codelist.py). -/
def icd9StrokePfx : List String :=
  ["430", "431", "432", "433", "434", "435", "436"]

/-- ICD10_STROKE_PREFIXES (stroke_codelist.py). -/
def icd10StrokePfx : List String :=
  ["I60", "I61", "I62", "I63", "I64", "G45"]

/-- ICD9_CARDIOVASCULAR_PREFIXES (cardiovascular_codelist.py). -/
def icd9CvdPfx : List String :=
  ["390", "391", "392", "393", "394", "395", "396", "397", "398",
   "401", "402", "403", "404", "405",
   "410", "411", "412", "413", "414", "415", "416", "417",
   "420", "421", "422", "423", "424", "425", "426", "427", "428", "429"]

/-- ICD10_CARDIOVASCULAR_PREFIXES (cardiovascular_codelist.py). -/
def icd10CvdPfx : List String :=
  ["I00", "I01", "I02", "I03", "I04", "I05", "I06", "I07", "I08", "I09",
   "I10", "I11", "I12", "I13", "I15",
   "I20", "I21", "I22", "I23", "I24", "I25", "I26", "I27", "I28",
   "I30", "I31", "I32", "I33", "I34", "I35", "I36", "I37", "I38", "I39",
   "I40", "I41", "I42", "I43", "I44", "I45", "I46", "I47", "I48", "I49",
   "I50", "I51"]

/-- _matches_prefix: the code starts with any entry of the family. -/
def matchesAnyPfx (code : String) (fams : List String) : Bool :=
  fams.any (fun p => strStarts code p)

/-- The error raised on an unrecognized code-system string. -/
inductive CodeErr where
  | unsupportedCodeSystem (s : String)
deriving DecidableEq

/-- is_stroke_code: falsy code or falsy system short-circuits to False before
the system dispatch; an unknown system is reached, and raises, only past that
guard. -/
def is_stroke_code (diagnosis_code code_system : Option String) : Except CodeErr Bool :=
  if pyStrFalsy diagnosis_code || pyStrFalsy code_system then .ok false
  else
    let code := ((diagnosis_code.getD "").trim).toUpper
    if code_system == some "ICD9" then .ok (matchesAnyPfx code icd9StrokePfx)
    else if code_system == some "ICD10" then .ok (matchesAnyPfx code icd10StrokePfx)
    else .error (.unsupportedCodeSystem (code_system.getD ""))

/-- is_cardiovascular_code: same control flow over the cardiovascular families. -/
def is_cardiovascular_code (diagnosis_code code_system : Option String) : Except CodeErr Bool :=
  if pyStrFalsy diagnosis_code || pyStrFalsy code_system then .ok false
  else
    let code := ((diagnosis_code.getD "").trim).toUpper
    if code_system == some "ICD9" then .ok (matchesAnyPfx code icd9CvdPfx)
    else if code_system == some "ICD10" then .ok (matchesAnyPfx code icd10CvdPfx)
    else .error (.unsupportedCodeSystem (code_system.getD ""))

/-
  ## Stroke phenotype aggregator
  Embeds _aggregate_to_admission from src/phenotypes/stroke_phenotype.py
  (and its duplicate in app/engine/phenotypes/stroke_phenotype.py).
-/

/-- One classified diagnosis row (post _validate_input: hadm_id non-null,
stroke flag boolean). seq_num is read only when the seq_num column exists. -/
structure DiagRow where
  hadm_id : Int
  is_stroke_code_flag : Bool
  seq_num : Int
deriving DecidableEq

/-- The classified diagnoses table: seq_num column presence, and the rows. -/
structure DiagTable where
  hasSeqCol : Bool
  rows : List DiagRow

/-- The distinct admission ids of the table in groupby order: pandas groupby
sorts the group keys ascending. -/
def groupIds (rows : List DiagRow) : List Int :=
  List.insertionSort (fun a b => a ≤ b) ((rows.map (fun r => r.hadm_id)).dedup)

/-- One admission-level stroke phenotype record. -/
structure StrokePhenoRec where
  hadm_id : Int
  total_diagnosis_count : Nat
  stroke_code_count : Nat
  stroke_code_density : ℚ
  has_any_stroke_signal : Bool
  stroke_primary_dx_flag : Bool
deriving DecidableEq

/-- The record _aggregate_to_admission builds for one admission id h: the
group is the rows with that id; total = group size (groupby size), stroke
count = stroke-flagged group size, density = stroke / total with a zero total
replaced by NA and the result filled with 0.0, the positive-count signal flag,
and the primary flag when the seq_num column exists (the group has a row with
seq_num == 1 and the stroke flag). -/
def admissionRecord (hasSeq : Bool) (rows : List DiagRow) (h : Int) : StrokePhenoRec :=
  ⟨h,
   (rows.filter (fun r => r.hadm_id == h)).length,
   ((rows.filter (fun r => r.hadm_id == h)).filter (fun r => r.is_stroke_code_flag)).length,
   if (rows.filter (fun r => r.hadm_id == h)).length = 0 then 0
   else
     (((rows.filter (fun r => r.hadm_id == h)).filter
         (fun r => r.is_stroke_code_flag)).length : ℚ) /
       ((rows.filter (fun r => r.hadm_id == h)).length : ℚ),
   decide (0 < ((rows.filter (fun r => r.hadm_id == h)).filter
       (fun r => r.is_stroke_code_flag)).length),
   hasSeq && (rows.filter (fun r => r.hadm_id == h)).any
     (fun r => (r.seq_num == 1) && r.is_stroke_code_flag)⟩

/-- _aggregate_to_admission: one record per distinct hadm_id of the input, in
groupby key order. -/
def aggregateToAdmission (t : DiagTable) : List StrokePhenoRec :=
  (groupIds t.rows).map (admissionRecord t.hasSeqCol t.rows)

/-
  ## Ranking evaluator input validation
  Embeds _validate_inputs from app/engine/evaluation/ranking.py, and, for
  contrast, _validate_inputs from app/engine/evaluation/metrics.py which
  additionally checks finiteness.
-/

/-- The label column as stored: either genuinely boolean dtype or some other
dtype (e.g. object); is_bool_dtype inspects the dtype, not the values. -/
inductive LabelCol where
  | boolCol (bs : List Bool)
  | otherDtype
deriving DecidableEq

/-- The scored table as the validators see it: each required column either
present with its cells or absent. -/
structure ScoredTable where
  labelCol : Option LabelCol
  scoreCol : Option (List FVal)

/-- The exceptions the validators raise. -/
inductive ValErr where
  | valueErr (msg : String)
  | typeErr (msg : String)
deriving DecidableEq

/-- _validate_inputs from ranking.py: missing columns, then label dtype, then
null scores. There is no finiteness check in this validator. -/
def validateRankingInputs (t : ScoredTable) : Except ValErr Unit :=
  match t.labelCol, t.scoreCol with
  | none, _ => .error (.valueErr "Ranking evaluation missing required columns")
  | _, none => .error (.valueErr "Ranking evaluation missing required columns")
  | some lc, some sc =>
    match lc with
    | .otherDtype => .error (.typeErr "eligibility_heuristic_label must be boolean")
    | .boolCol _ =>
      if sc.any (fun v => v.isNull)
      then .error (.valueErr "Null values detected in eligibility_ml_score")
      else .ok ()

/-- _validate_inputs from metrics.py: the same checks plus the finiteness
check on the score column. -/
def validateMetricsInputs (t : ScoredTable) : Except ValErr Unit :=
  match t.labelCol, t.scoreCol with
  | none, _ => .error (.valueErr "Metrics evaluation missing required columns")
  | _, none => .error (.valueErr "Metrics evaluation missing required columns")
  | some lc, some sc =>
    match lc with
    | .otherDtype => .error (.typeErr "eligibility_heuristic_label must be boolean")
    | .boolCol _ =>
      if sc.any (fun v => v.isNull)
      then .error (.valueErr "Null values detected in eligibility_ml_score")
      else if !(sc.all (fun v => v.isFin))
      then .error (.valueErr "Non-finite values detected in eligibility_ml_score")
      else .ok ()

/-- The validator as the specification words it for the ranking evaluator:
non-boolean labels, null scores and non-finite scores all rejected. Used only
to compare the specified precondition with the implemented one. -/
def validateRankingInputsSpec (t : ScoredTable) : Except ValErr Unit :=
  match t.labelCol, t.scoreCol with
  | none, _ => .error (.valueErr "Ranking evaluation missing required columns")
  | _, none => .error (.valueErr "Ranking evaluation missing required columns")
  | some lc, some sc =>
    match lc with
    | .otherDtype => .error (.typeErr "eligibility_heuristic_label must be boolean")
    | .boolCol _ =>
      if sc.any (fun v => v.isNull)
      then .error (.valueErr "Null values detected in eligibility_ml_score")
      else if !(sc.all (fun v => v.isFin))
      then .error (.valueErr "Non-finite values detected in eligibility_ml_score")
      else .ok ()

/-- Zip the two validated columns into scored rows (the evaluator reads both
columns of the same frame; hadm_id is not read by the metric computations). -/
def tableRows (lc : List Bool) (sc : List FVal) : List ScoredRow :=
  (lc.zip sc).map (fun p => ⟨0, p.1, p.2⟩)

/-- One output row of evaluate_ranking. -/
structure RankResult where
  method : String
  k : Nat
  recall_at_k : ℚ
  precision_at_k : ℚ
deriving DecidableEq

/-- evaluate_ranking: validate, then for each K append the heuristic pair and
the ml pair. -/
def evaluateRanking (t : ScoredTable) (kValues : List Nat) : Except ValErr (List RankResult) :=
  match validateRankingInputs t with
  | .error e => .error e
  | .ok _ =>
    match t.labelCol, t.scoreCol with
    | some (.boolCol lc), some sc =>
      let rows := tableRows lc sc
      .ok (kValues.flatMap (fun k =>
        let hm := evalHeuristicScreening rows k
        let mm := evalMlRanking rows k
        [⟨"heuristic", k, hm.recall_at_k, hm.precision_at_k⟩,
         ⟨"ml", k, mm.recall_at_k, mm.precision_at_k⟩]))
    | _, _ => .error (.valueErr "unreachable past validation")

/-
  ## Study configuration merge
  Embeds _apply_defaults from src/config/study_loader.py: a recursive merge of
  user YAML onto the default study configuration.
-/

/-- A YAML configuration value: scalar, list of ints (the K values), or a
nested mapping, modelled as an association list in insertion order. -/
inductive CfgValue where
  | vInt (n : Int)
  | vBool (b : Bool)
  | vStr (s : String)
  | vList (ns : List Int)
  | dict (entries : List (String × CfgValue))

/-- Python `key in mapping` / `mapping[key]` on the association-list model:
first binding wins (Python dict keys are unique, so at most one exists). -/
def lookupKey (k : String) : List (String × CfgValue) → Option CfgValue
  | [] => none
  | (k1, v) :: rest => if k1 = k then some v else lookupKey k rest

mutual

/-- _apply_defaults: the first loop produces one binding per default key
(default kept, nested dicts merged recursively, otherwise the user value);
the second loop appends the user bindings whose key is not among the merged
(default) keys, preserving them verbatim. -/
def applyDefaults (user defaults : List (String × CfgValue)) : List (String × CfgValue) :=
  mergePass user defaults ++ user.filter (fun kv => (lookupKey kv.1 defaults).isNone)

/-- The first loop of _apply_defaults, over the default bindings in order. -/
def mergePass (user : List (String × CfgValue)) : List (String × CfgValue) → List (String × CfgValue)
  | [] => []
  | (k, dv) :: rest =>
    (match lookupKey k user, dv with
     | none, _ => (k, dv)
     | some (.dict u), .dict d => (k, .dict (applyDefaults u d))
     | some uv, _ => (k, uv)) :: mergePass user rest

end

/-- DEFAULT_STUDY_CONFIG from src/config/study_loader.py. -/
def defaultStudyConfig : List (String × CfgValue) :=
  [("age", .dict [("min", .vInt 18), ("max", .vInt 85), ("hard_exclude", .vInt 90)]),
   ("stroke_signal", .dict [("min_code_count", .vInt 1),
                            ("require_any_signal", .vBool true),
                            ("prefer_primary_dx", .vBool true)]),
   ("cardiovascular_context", .dict [("min_code_count", .vInt 1),
                                     ("required", .vBool false)]),
   ("admission", .dict [("emergency_only", .vBool false)]),
   ("ml_scoring", .dict [("enabled", .vBool false), ("min_score", .vInt 0)]),
   ("exclusions", .dict [("exclude_without_stroke_signal", .vBool true),
                         ("exclude_if_age_above_hard_limit", .vBool true)]),
   ("screening", .dict [("default_k_values", .vList [25, 50, 100, 200])])]

/-
  # Theorems
-/

/-- Claim C1: for every admission row processed by the eligibility rule
engine, the final heuristic label satisfies the exact biconditional
eligibility_heuristic_label = age_in_range AND stroke_signal_ok AND
admission_ok AND NOT excluded, for every input table and configuration. -/
theorem eligibility_label_exact_conjunction
    (cfg : HeurConfig) (t : AdmTable) (o : EligRow)
    (ho : o ∈ applyHeuristics cfg t) :
    o.eligibility_heuristic_label = true ↔
      (o.age_in_range = true ∧ o.stroke_signal_ok = true ∧
       o.admission_ok = true ∧ o.excluded = false) := by
  rcases List.mem_map.mp ho with ⟨r, _, rfl⟩
  simp only [applyHeuristicsRow, Bool.and_eq_true, Bool.not_eq_eq_eq_not,
    Bool.not_true, and_assoc]

/-- Witness for C1: the spec scenario row (age 70, EMERGENCY, stroke signal,
default thresholds) drawn from a one-row table. -/
theorem eligibility_label_exact_conjunction_case :
    (applyHeuristicsRow ⟨18, 85, 90, true⟩ true
        ⟨1, 10, "EMERGENCY", true, 2, FVal.fin 70⟩).eligibility_heuristic_label = true ↔
      ((applyHeuristicsRow ⟨18, 85, 90, true⟩ true
          ⟨1, 10, "EMERGENCY", true, 2, FVal.fin 70⟩).age_in_range = true ∧
       (applyHeuristicsRow ⟨18, 85, 90, true⟩ true
          ⟨1, 10, "EMERGENCY", true, 2, FVal.fin 70⟩).stroke_signal_ok = true ∧
       (applyHeuristicsRow ⟨18, 85, 90, true⟩ true
          ⟨1, 10, "EMERGENCY", true, 2, FVal.fin 70⟩).admission_ok = true ∧
       (applyHeuristicsRow ⟨18, 85, 90, true⟩ true
          ⟨1, 10, "EMERGENCY", true, 2, FVal.fin 70⟩).excluded = false) :=
  eligibility_label_exact_conjunction ⟨18, 85, 90, true⟩
    ⟨true, [⟨1, 10, "EMERGENCY", true, 2, FVal.fin 70⟩]⟩ _
    (List.mem_singleton.mpr rfl)

/-- Counterexample for C2: on a row aged 95 with a stroke signal, the legacy
exclusion rule (src/heuristics/exclusion_rules.py) records the reason
"age_above_max_exclusion", not the "age_above_hard_limit" the claim asserts;
the config-aware rule records "age_above_hard_limit". -/
theorem exclusion_rules_legacy_reason_differs :
    applyExclusionRulesLegacyRow ⟨FVal.fin 95, true⟩ =
      ⟨true, "age_above_max_exclusion"⟩ ∧
    applyExclusionRulesRow defaultExclConfig ⟨FVal.fin 95, true⟩ =
      ⟨true, "age_above_hard_limit"⟩ ∧
    ("age_above_max_exclusion" : String) ≠ "age_above_hard_limit" := by
  refine ⟨?_, ?_, by decide⟩ <;>
    norm_num [applyExclusionRulesLegacyRow, applyExclusionRulesRow,
      defaultExclConfig, FVal.gtQ]

/-- Claim C2 (amended): both exclusion implementations start from
excluded = false and apply the same first-matching-reason-wins chain —
excluded with an age reason when age exceeds the hard threshold 90, excluded
with reason "no_stroke_signal" when the stroke signal is absent and no reason
was already recorded, reasons never combined — but the config-aware rule
(app/engine, default configuration with both toggles enabled) records the age
reason as "age_above_hard_limit" while the legacy rule
(src/heuristics/exclusion_rules.py) records it as "age_above_max_exclusion". -/
theorem exclusion_rules_default_first_reason_wins (r : ExclRow) :
    (applyExclusionRulesRow defaultExclConfig r =
      if r.age_at_admission.gtQ 90 then ⟨true, "age_above_hard_limit"⟩
      else if !r.has_any_stroke_signal then ⟨true, "no_stroke_signal"⟩
      else ⟨false, ""⟩) ∧
    (applyExclusionRulesLegacyRow r =
      if r.age_at_admission.gtQ 90 then ⟨true, "age_above_max_exclusion"⟩
      else if !r.has_any_stroke_signal then ⟨true, "no_stroke_signal"⟩
      else ⟨false, ""⟩) := by
  refine ⟨?_, ?_⟩ <;>
    (cases hA : r.age_at_admission.gtQ 90 <;>
      cases hS : r.has_any_stroke_signal <;>
        simp [applyExclusionRulesRow, applyExclusionRulesLegacyRow,
          defaultExclConfig, hA, hS])

/-- Claim C10: in every table returned by the exclusion rule, for every
configuration, each row is excluded exactly when its exclusion_reason is a
non-empty string. -/
theorem exclusion_flag_iff_reason_nonempty
    (cfg : ExclConfig) (rows : List ExclRow) (o : ExclOut)
    (ho : o ∈ applyExclusionRules cfg rows) :
    o.excluded = true ↔ o.exclusion_reason ≠ "" := by
  rcases List.mem_map.mp ho with ⟨r, _, rfl⟩
  cases h1 : cfg.exclude_if_age_above <;>
    cases h2 : cfg.exclude_without_stroke <;>
      cases h3 : r.age_at_admission.gtQ cfg.hard_exclude_age <;>
        cases h4 : r.has_any_stroke_signal <;>
          simp [applyExclusionRulesRow, h1, h2, h3, h4]

/-- Witness for C10: a row aged above the hard limit under the default
configuration. -/
theorem exclusion_flag_iff_reason_nonempty_case :
    (applyExclusionRulesRow defaultExclConfig ⟨FVal.fin 95, true⟩).excluded = true ↔
      (applyExclusionRulesRow defaultExclConfig ⟨FVal.fin 95, true⟩).exclusion_reason ≠ "" :=
  exclusion_flag_iff_reason_nonempty defaultExclConfig [⟨FVal.fin 95, true⟩] _
    (List.mem_singleton.mpr rfl)

/-- Counterexample for C3: the legacy age rule (src/heuristics/age_rules.py)
DOES fail on a table whose age_at_admission column is entirely absent:
require_columns raises a ValueError instead of substituting defaults. -/
theorem age_rules_legacy_absent_column_fails :
    applyAgeRulesLegacy (AgeCol.absent 2) =
      .error "Age rules input is missing required columns: [age_at_admission]" := rfl

/-- Claim C3 (amended): the config-aware age rule
(app/engine/heuristics/age_rules.py) does not fail on a table without the age
column and substitutes age_in_range = true, age_excluded = false for every
row; on a table with the column it returns the per-row threshold comparisons;
the legacy variant (src/heuristics/age_rules.py) instead fails fast on an
absent column, and agrees with the config-aware rule at the default
thresholds when the column is present. -/
theorem age_rules_config_aware_conservative (cfg : AgeConfig) :
    (∀ n : Nat, ∀ f ∈ applyAgeRules cfg (AgeCol.absent n),
        f.age_in_range = true ∧ f.age_excluded = false) ∧
    (∀ ages : List FVal, applyAgeRules cfg (AgeCol.present ages) =
        ages.map (fun a =>
          ⟨a.geQ cfg.minAge && a.leQ cfg.maxAge, a.gtQ cfg.hardExclude⟩)) ∧
    (∀ ages : List FVal, applyAgeRulesLegacy (AgeCol.present ages) =
        .ok (applyAgeRules defaultAgeConfig (AgeCol.present ages))) := by
  refine ⟨?_, fun _ => rfl, fun _ => rfl⟩
  intro n f hf
  rcases List.eq_of_mem_replicate hf with rfl
  exact ⟨rfl, rfl⟩

/-- Witness for C3: a row drawn from a three-row table without an age column
carries the conservative defaults. -/
theorem age_rules_config_aware_conservative_case :
    (AgeFlags.mk true false).age_in_range = true ∧
      (AgeFlags.mk true false).age_excluded = false :=
  (age_rules_config_aware_conservative defaultAgeConfig).1 3 ⟨true, false⟩
    (by simp [applyAgeRules, List.mem_replicate])

/-- Helper: the embedded score comparison is total. -/
theorem scoreLe_total (a b : ScoredRow) : scoreLe a b = true ∨ scoreLe b a = true := by
  rcases a with ⟨_, _, sa⟩
  rcases b with ⟨_, _, sb⟩
  cases sa <;> cases sb <;> simp only [scoreLe, decide_eq_true_eq] <;>
    first
      | exact Or.inl trivial
      | exact Or.inr trivial
      | exact le_total _ _

/-- Helper: the embedded score comparison is transitive. -/
theorem scoreLe_trans (a b c : ScoredRow)
    (h1 : scoreLe a b = true) (h2 : scoreLe b c = true) : scoreLe a c = true := by
  rcases a with ⟨_, _, sa⟩
  rcases b with ⟨_, _, sb⟩
  rcases c with ⟨_, _, sc⟩
  cases sa <;> cases sb <;> cases sc <;> simp_all [scoreLe]
  exact h1.trans h2

/-- Counterexample for C4: on two rows tied at the same score, the code
(reverse of an ascending stable argsort) screens the LATER row first, while
the stable descending sort described by the spec screens the EARLIER row
first — equal scores do not retain their original relative order. -/
theorem ml_ranking_tie_order_reversed :
    (((sortValuesDesc
          [⟨1, true, FVal.fin 1⟩, ⟨2, false, FVal.fin 1⟩]).take 1).map
        (fun r => r.hadm_id) = [2]) ∧
    (((sortByScoreDescStable
          [⟨1, true, FVal.fin 1⟩, ⟨2, false, FVal.fin 1⟩]).take 1).map
        (fun r => r.hadm_id) = [1]) :=
  ⟨by simp [sortValuesDesc, scoreLeP, scoreLe],
   by simp [sortByScoreDescStable, scoreLe]⟩

/-- Claim C4 (amended): the score-ranked strategy screens exactly the first K
rows of the table sorted by eligibility_ml_score descending, and the sorted
table is a permutation of the input with pairwise non-increasing scores, so
the screened set and both metrics are deterministic functions of the input
table; however ties are broken by reversing an ascending stable sort, so
equal scores appear in REVERSED original relative order, not original order. -/
theorem ml_ranking_sorted_desc_take_k (rows : List ScoredRow) (k : Nat) :
    (sortValuesDesc rows).Perm rows ∧
    List.Pairwise (fun a b => scoreLe b a = true) (sortValuesDesc rows) ∧
    evalMlRanking rows k =
      ⟨if (rows.filter (fun r => r.label)).length > 0 then
          ((((sortValuesDesc rows).take k).filter (fun r => r.label)).length : ℚ) /
            (((rows.filter (fun r => r.label)).length : ℚ))
        else 0,
       if k > 0 then
          ((((sortValuesDesc rows).take k).filter (fun r => r.label)).length : ℚ) /
            ((k : ℚ))
        else 0⟩ := by
  haveI : IsTotal ScoredRow scoreLeP := ⟨scoreLe_total⟩
  haveI : IsTrans ScoredRow scoreLeP := ⟨scoreLe_trans⟩
  refine ⟨(List.reverse_perm _).trans (List.perm_insertionSort _ _), ?_, rfl⟩
  have hs : List.Pairwise scoreLeP (List.insertionSort scoreLeP rows) :=
    List.sorted_insertionSort scoreLeP rows
  exact List.pairwise_reverse.mpr (by simpa [flip, scoreLeP] using hs)

/-- Claim C5: the ranking evaluator never fails on degenerate capacities:
K = 0 yields precision_at_k = 0 exactly for both strategies (the explicit
zero guard, not a division error), zero total heuristic positives yields
recall_at_k = 0 exactly for both strategies, and K at least the row count is
legal and screens all available rows (every heuristic positive, respectively
the whole sorted table). -/
theorem ranking_degenerate_capacity_guards (rows : List ScoredRow) (k : Nat) :
    ((evalHeuristicScreening rows 0).precision_at_k = 0 ∧
     (evalMlRanking rows 0).precision_at_k = 0) ∧
    ((rows.filter (fun r => r.label)).length = 0 →
      (evalHeuristicScreening rows k).recall_at_k = 0 ∧
      (evalMlRanking rows k).recall_at_k = 0) ∧
    (rows.length ≤ k →
      (rows.filter (fun r => r.label)).take k = rows.filter (fun r => r.label) ∧
      (sortValuesDesc rows).take k = sortValuesDesc rows) := by
  refine ⟨⟨?_, ?_⟩, fun h0 => ⟨?_, ?_⟩, fun hk => ⟨?_, ?_⟩⟩
  · simp [evalHeuristicScreening]
  · simp [evalMlRanking]
  · simp [evalHeuristicScreening, h0]
  · simp [evalMlRanking, h0]
  · exact List.take_of_length_le (le_trans (List.length_filter_le _ _) hk)
  · refine List.take_of_length_le ?_
    rw [sortValuesDesc, List.length_reverse, List.length_insertionSort]
    exact hk

/-- Witness for C5: a one-row table with a negative label, K = 2. -/
theorem ranking_degenerate_capacity_guards_case :
    ((evalHeuristicScreening [⟨1, false, FVal.fin 1⟩] 0).precision_at_k = 0 ∧
     (evalMlRanking [⟨1, false, FVal.fin 1⟩] 0).precision_at_k = 0) ∧
    ((evalHeuristicScreening [⟨1, false, FVal.fin 1⟩] 2).recall_at_k = 0 ∧
     (evalMlRanking [⟨1, false, FVal.fin 1⟩] 2).recall_at_k = 0) ∧
    (([⟨1, false, FVal.fin 1⟩] : List ScoredRow).filter (fun r => r.label)).take 2 =
        ([⟨1, false, FVal.fin 1⟩] : List ScoredRow).filter (fun r => r.label) ∧
    (sortValuesDesc [⟨1, false, FVal.fin 1⟩]).take 2 = sortValuesDesc [⟨1, false, FVal.fin 1⟩] := by
  have h := ranking_degenerate_capacity_guards [⟨1, false, FVal.fin 1⟩] 2
  exact ⟨h.1, h.2.1 (by simp), (h.2.2 (by simp)).1, (h.2.2 (by simp)).2⟩

/-- Counterexample for C6: with an empty code and a present but unknown code
system, both classifiers return ok false — the empty-code guard short-circuits
before the system dispatch, so no UnsupportedCodeSystem error is raised,
contrary to the parenthetical of the claim. -/
theorem classifier_empty_code_unknown_system_no_error :
    is_stroke_code (some "") (some "SNOMED") = .ok false ∧
    is_cardiovascular_code (some "") (some "SNOMED") = .ok false :=
  ⟨rfl, rfl⟩

/-- Claim C6 (amended): an empty or missing diagnosis code, or an empty or
missing code system, yields false for both phenotype flags without raising —
including when the code is empty and an unknown system string is present; a
classification whose code is NON-empty and whose system string is present but
neither ICD9 nor ICD10 fails with an UnsupportedCodeSystem error. -/
theorem classifier_guard_and_unknown_system (code sys : Option String) :
    ((pyStrFalsy code = true ∨ pyStrFalsy sys = true) →
      is_stroke_code code sys = .ok false ∧
      is_cardiovascular_code code sys = .ok false) ∧
    (pyStrFalsy code = false → pyStrFalsy sys = false →
      sys ≠ some "ICD9" → sys ≠ some "ICD10" →
      is_stroke_code code sys = .error (.unsupportedCodeSystem (sys.getD "")) ∧
      is_cardiovascular_code code sys = .error (.unsupportedCodeSystem (sys.getD ""))) := by
  constructor
  · intro h
    have hor : (pyStrFalsy code || pyStrFalsy sys) = true := by
      rcases h with h | h <;> simp [h]
    exact ⟨by simp [is_stroke_code, hor], by simp [is_cardiovascular_code, hor]⟩
  · intro hc hs h9 h10
    have hor : (pyStrFalsy code || pyStrFalsy sys) = false := by simp [hc, hs]
    have b9 : (sys == some "ICD9") = false := by
      simpa using h9
    have b10 : (sys == some "ICD10") = false := by
      simpa using h10
    exact ⟨by simp [is_stroke_code, hor, b9, b10],
           by simp [is_cardiovascular_code, hor, b9, b10]⟩

/-- Witness for C6: a non-empty code under the unknown system SNOMED. -/
theorem classifier_guard_and_unknown_system_case :
    is_stroke_code (some "X47") (some "SNOMED") =
      .error (.unsupportedCodeSystem "SNOMED") ∧
    is_cardiovascular_code (some "X47") (some "SNOMED") =
      .error (.unsupportedCodeSystem "SNOMED") :=
  (classifier_guard_and_unknown_system (some "X47") (some "SNOMED")).2
    rfl rfl (by decide) (by decide)

/-- Helper: the guarded quotient of m by n with m at most n lies in [0, 1],
equals the quotient when n is positive, and is 0 when n is 0. -/
theorem guard_div_bounds (m n : Nat) (hmn : m ≤ n) :
    ((0 : ℚ) ≤ (if n = 0 then 0 else (m : ℚ) / (n : ℚ))) ∧
    ((if n = 0 then 0 else (m : ℚ) / (n : ℚ)) ≤ 1) ∧
    (0 < n → (if n = 0 then (0 : ℚ) else (m : ℚ) / (n : ℚ)) = (m : ℚ) / (n : ℚ)) ∧
    (n = 0 → (if n = 0 then (0 : ℚ) else (m : ℚ) / (n : ℚ)) = 0) := by
  by_cases h0 : n = 0
  · refine ⟨by simp [h0], by simp [h0], ?_, fun _ => by simp [h0]⟩
    intro hpos
    omega
  · have hpos : (0 : ℚ) < (n : ℚ) := by exact_mod_cast Nat.pos_of_ne_zero h0
    refine ⟨?_, ?_, fun _ => by simp [h0], fun habs => absurd habs h0⟩
    · rw [if_neg h0]
      exact div_nonneg (Nat.cast_nonneg m) (le_of_lt hpos)
    · rw [if_neg h0, div_le_one hpos]
      exact_mod_cast hmn

/-- Helper: the admission ids of the aggregated output are exactly the sorted
deduplicated ids of the input rows. -/
theorem aggregate_map_ids (t : DiagTable) :
    (aggregateToAdmission t).map (fun rec => rec.hadm_id) = groupIds t.rows := by
  rw [aggregateToAdmission, List.map_map]
  show List.map (fun h => h) (groupIds t.rows) = groupIds t.rows
  exact List.map_id' _

/-- Claim C7: the phenotype aggregator emits exactly one record per distinct
admission_id present in the input (and none for absent admissions), and in
every emitted record stroke_code_density lies in [0, 1], equals
stroke_code_count / total_diagnosis_count when the total is positive, and
equals 0 when the total is 0. -/
theorem stroke_aggregate_unique_ids_density_bounds (t : DiagTable) :
    ((aggregateToAdmission t).map (fun rec => rec.hadm_id)).Nodup ∧
    (∀ h : Int,
      h ∈ (aggregateToAdmission t).map (fun rec => rec.hadm_id) ↔
        h ∈ t.rows.map (fun r => r.hadm_id)) ∧
    (∀ rec ∈ aggregateToAdmission t,
      0 ≤ rec.stroke_code_density ∧ rec.stroke_code_density ≤ 1 ∧
      (0 < rec.total_diagnosis_count →
        rec.stroke_code_density =
          (rec.stroke_code_count : ℚ) / (rec.total_diagnosis_count : ℚ)) ∧
      (rec.total_diagnosis_count = 0 → rec.stroke_code_density = 0)) := by
  have hperm : (groupIds t.rows).Perm ((t.rows.map (fun r => r.hadm_id)).dedup) :=
    List.perm_insertionSort _ _
  refine ⟨?_, ?_, ?_⟩
  · rw [aggregate_map_ids]
    exact hperm.nodup_iff.mpr (List.nodup_dedup _)
  · intro h
    rw [aggregate_map_ids]
    rw [hperm.mem_iff, List.mem_dedup]
  · intro rec hrec
    rcases List.mem_map.mp hrec with ⟨h, _, rfl⟩
    have hub := guard_div_bounds
      ((t.rows.filter (fun r => r.hadm_id == h)).filter
        (fun r => r.is_stroke_code_flag)).length
      (t.rows.filter (fun r => r.hadm_id == h)).length
      (List.length_filter_le _ _)
    simp only [admissionRecord]
    exact ⟨hub.1, hub.2.1, hub.2.2.1, hub.2.2.2⟩

/-- Witness for C7: a single-diagnosis admission; its record has a positive
total so the density equals the quotient of the counts. -/
theorem stroke_aggregate_unique_ids_density_bounds_case :
    (7 : Int) ∈ (aggregateToAdmission ⟨false, [⟨7, true, 1⟩]⟩).map (fun rec => rec.hadm_id) ∧
    (0 : ℚ) ≤ (StrokePhenoRec.mk 7 1 1 ((1 : ℚ) / (1 : ℚ)) true false).stroke_code_density ∧
    (StrokePhenoRec.mk 7 1 1 ((1 : ℚ) / (1 : ℚ)) true false).stroke_code_density ≤ 1 ∧
    (StrokePhenoRec.mk 7 1 1 ((1 : ℚ) / (1 : ℚ)) true false).stroke_code_density =
      ((StrokePhenoRec.mk 7 1 1 ((1 : ℚ) / (1 : ℚ)) true false).stroke_code_count : ℚ) /
        ((StrokePhenoRec.mk 7 1 1 ((1 : ℚ) / (1 : ℚ)) true false).total_diagnosis_count : ℚ) := by
  have h := stroke_aggregate_unique_ids_density_bounds ⟨false, [⟨7, true, 1⟩]⟩
  have hmem : StrokePhenoRec.mk 7 1 1 ((1 : ℚ) / (1 : ℚ)) true false ∈
      aggregateToAdmission ⟨false, [⟨7, true, 1⟩]⟩ := by
    simp [aggregateToAdmission, groupIds, admissionRecord]
  rcases h.2.2 _ hmem with ⟨hnn, hle1, hdiv, _⟩
  exact ⟨(h.2.1 7).mpr (by simp), hnn, hle1, hdiv (by decide)⟩

/-- Counterexample for C8: a table whose score column holds positive infinity
(non-finite, non-null) passes the ranking validator and the evaluator computes
metrics — no ValidationError is raised; the metrics validator and the
validator the spec describes both reject the same table. -/
theorem ranking_validator_accepts_infinite_score :
    validateRankingInputs ⟨some (.boolCol [true]), some [FVal.pinf]⟩ = .ok () ∧
    (evaluateRanking ⟨some (.boolCol [true]), some [FVal.pinf]⟩ [1]).isOk = true ∧
    validateMetricsInputs ⟨some (.boolCol [true]), some [FVal.pinf]⟩ =
      .error (.valueErr "Non-finite values detected in eligibility_ml_score") ∧
    validateRankingInputsSpec ⟨some (.boolCol [true]), some [FVal.pinf]⟩ =
      .error (.valueErr "Non-finite values detected in eligibility_ml_score") :=
  ⟨rfl, rfl, rfl, rfl⟩

/-- Claim C8 (amended): the ranking evaluator rejects a non-boolean label
column with a TypeError and a null-bearing score column with a ValueError
before computing any metric, and computes metrics without raising otherwise;
it does NOT check finiteness, so non-finite (infinite) scores are accepted —
the finiteness check exists only in the metrics-module validator. -/
theorem ranking_validator_characterization
    (ls : List Bool) (sc : List FVal) (ks : List Nat) :
    (validateRankingInputs ⟨some .otherDtype, some sc⟩ =
      .error (.typeErr "eligibility_heuristic_label must be boolean")) ∧
    (sc.any (fun v => v.isNull) = true →
      validateRankingInputs ⟨some (.boolCol ls), some sc⟩ =
        .error (.valueErr "Null values detected in eligibility_ml_score")) ∧
    (sc.any (fun v => v.isNull) = false →
      validateRankingInputs ⟨some (.boolCol ls), some sc⟩ = .ok () ∧
      evaluateRanking ⟨some (.boolCol ls), some sc⟩ ks =
        .ok (ks.flatMap (fun k =>
          [⟨"heuristic", k, (evalHeuristicScreening (tableRows ls sc) k).recall_at_k,
            (evalHeuristicScreening (tableRows ls sc) k).precision_at_k⟩,
           ⟨"ml", k, (evalMlRanking (tableRows ls sc) k).recall_at_k,
            (evalMlRanking (tableRows ls sc) k).precision_at_k⟩]))) ∧
    (sc.any (fun v => v.isNull) = false → sc.all (fun v => v.isFin) = false →
      validateMetricsInputs ⟨some (.boolCol ls), some sc⟩ =
        .error (.valueErr "Non-finite values detected in eligibility_ml_score")) := by
  refine ⟨rfl, ?_, ?_, ?_⟩
  · intro h
    simp [validateRankingInputs, h]
  · intro h
    refine ⟨by simp [validateRankingInputs, h], ?_⟩
    simp [evaluateRanking, validateRankingInputs, h]
  · intro h hf
    simp [validateMetricsInputs, h, hf]

/-- Witness for C8: a single-row table with an infinite score and K = 2. -/
theorem ranking_validator_characterization_case :
    validateRankingInputs ⟨some (.boolCol [true]), some [FVal.pinf]⟩ = .ok () ∧
    evaluateRanking ⟨some (.boolCol [true]), some [FVal.pinf]⟩ [2] =
      .ok ([2].flatMap (fun k =>
        [⟨"heuristic", k,
          (evalHeuristicScreening (tableRows [true] [FVal.pinf]) k).recall_at_k,
          (evalHeuristicScreening (tableRows [true] [FVal.pinf]) k).precision_at_k⟩,
         ⟨"ml", k,
          (evalMlRanking (tableRows [true] [FVal.pinf]) k).recall_at_k,
          (evalMlRanking (tableRows [true] [FVal.pinf]) k).precision_at_k⟩])) :=
  (ranking_validator_characterization [true] [FVal.pinf] [2]).2.2.1 rfl

/-- Helper: looking a key up past an append takes the left value first. -/
theorem lookupKey_append (k : String) (l1 l2 : List (String × CfgValue)) :
    lookupKey k (l1 ++ l2) =
      match lookupKey k l1 with
      | some v => some v
      | none => lookupKey k l2 := by
  induction l1 with
  | nil => rfl
  | cons e rest ih =>
    rcases e with ⟨k1, v⟩
    by_cases hk : k1 = k <;> simp [lookupKey, hk, ih]

/-- Helper: a lookup in the first merge loop output is the lookup among the
defaults, with the value resolved against the user mapping. -/
theorem lookupKey_mergePass (user ds : List (String × CfgValue)) (k : String) :
    lookupKey k (mergePass user ds) =
      Option.map (fun dv =>
        match lookupKey k user, dv with
        | none, _ => dv
        | some (.dict u), .dict d => .dict (applyDefaults u d)
        | some uv, _ => uv) (lookupKey k ds) := by
  induction ds with
  | nil => simp [mergePass, lookupKey]
  | cons e rest ih =>
    rcases e with ⟨k1, dv⟩
    by_cases hk : k1 = k
    · subst hk
      cases hu : lookupKey k1 user with
      | none => cases dv <;> simp [mergePass, lookupKey, hu]
      | some uv => cases dv <;> cases uv <;> simp [mergePass, lookupKey, hu]
    · cases hu : lookupKey k1 user with
      | none => cases dv <;> simp [mergePass, lookupKey, hk, hu, ih]
      | some uv => cases dv <;> cases uv <;> simp [mergePass, lookupKey, hk, hu, ih]

/-- Helper: when the key is not a default key, the second merge loop keeps the
user binding unchanged. -/
theorem lookupKey_filter_unknown (user ds : List (String × CfgValue)) (k : String)
    (hd : lookupKey k ds = none) :
    lookupKey k (user.filter (fun kv => (lookupKey kv.1 ds).isNone)) =
      lookupKey k user := by
  induction user with
  | nil => rfl
  | cons e rest ih =>
    rcases e with ⟨k1, v⟩
    by_cases hk : k1 = k
    · subst hk
      simp [List.filter, hd, lookupKey]
    · cases hfe : (lookupKey k1 ds).isNone <;>
        simp [List.filter, hfe, lookupKey, hk, ih]

/-- Claim C9: the merged configuration contains every default key, keeps the
default value whenever the user did not override it, merges nested groups
recursively when both sides are mappings, and retains every user-supplied key
that is not among the defaults with its value unchanged. -/
theorem study_config_merge_preserves_keys
    (user defaults : List (String × CfgValue)) (k : String) :
    (∀ dv, lookupKey k defaults = some dv →
      lookupKey k (applyDefaults user defaults) ≠ none) ∧
    (∀ dv, lookupKey k defaults = some dv → lookupKey k user = none →
      lookupKey k (applyDefaults user defaults) = some dv) ∧
    (∀ u d, lookupKey k user = some (.dict u) →
      lookupKey k defaults = some (.dict d) →
      lookupKey k (applyDefaults user defaults) =
        some (.dict (applyDefaults u d))) ∧
    (∀ uv, lookupKey k defaults = none → lookupKey k user = some uv →
      lookupKey k (applyDefaults user defaults) = some uv) := by
  refine ⟨?_, ?_, ?_, ?_⟩
  · intro dv hd
    rw [applyDefaults, lookupKey_append, lookupKey_mergePass, hd]
    cases hu : lookupKey k user
    · simp
    · rename_i uv
      cases uv <;> cases dv <;> simp
  · intro dv hd hu
    rw [applyDefaults, lookupKey_append, lookupKey_mergePass, hd, hu]
    cases dv <;> rfl
  · intro u d hu hd
    rw [applyDefaults, lookupKey_append, lookupKey_mergePass, hd, hu]
    rfl
  · intro uv hd hu
    rw [applyDefaults, lookupKey_append, lookupKey_mergePass, hd]
    simpa [lookupKey_filter_unknown user defaults k hd] using hu

/-- Witness for C9: a user configuration with study metadata (an unrecognized
top-level key) merged onto the default study configuration keeps the metadata
verbatim. -/
theorem study_config_merge_preserves_keys_case :
    lookupKey "study"
      (applyDefaults [("study", .vStr "demo"), ("age", .dict [("max", .vInt 80)])]
        defaultStudyConfig) = some (.vStr "demo") :=
  (study_config_merge_preserves_keys
      [("study", .vStr "demo"), ("age", .dict [("max", .vInt 80)])]
      defaultStudyConfig "study").2.2.2 (.vStr "demo") rfl rfl

end ClinEl


